import Mathlib

/-
Verification development for the CertTrackr repository.

The development shallowly embeds the temporal extraction and classification
code of the repository:
  * the storage-layer enrichment arithmetic (`calculateDaysUntilExpiry`,
    `isExpired`, `progressPercentage`) of `PostgreSQLStorage` /
    `InMemoryStorage`;
  * the client-side day counting (`differenceInDays` from date-fns, used by
    `getCertificateStatus` and `SubscriptionCard`);
  * the `toDate` normalizer of `shared/schema.ts`;
  * the `DateExtractor` class (`datePatterns`, `extractExpiryDate`,
    `parseDate`, `isValidExpiryDate`, `calculateConfidence`);
  * the `InMemoryStorage` certificate read/write paths.

Modelling conventions: a JavaScript `Date` is represented by its millisecond
timestamp (an `Int`); real-number arithmetic (`Math.ceil` of a division,
confidence scores) is modelled exactly over `ℚ`; `Date` values carrying NaN
(invalid dates) are modelled as `none`; the local timezone is modelled as UTC.
-/

namespace CertTrackr

/-- Milliseconds per day, the constant `1000 * 3600 * 24` used throughout the
storage layer. -/
def msPerDay : Int := 1000 * 3600 * 24

/-- Embedding of `PostgreSQLStorage.calculateDaysUntilExpiry` (the identical
copy lives in `InMemoryStorage` and inline in `enrichSubscription`):
`Math.ceil((expiryDate.getTime() - now.getTime()) / (1000 * 3600 * 24))`. -/
def calculateDaysUntilExpiry (expiryDate now : Int) : Int :=
  ⌈(((expiryDate - now : Int) : ℚ) / ((msPerDay : Int) : ℚ))⌉

/-- Embedding of `PostgreSQLStorage.isExpired` / the `endDate < now` test of
`enrichSubscription`: strict comparison `new Date() > expiryDate`. -/
def isExpired (expiryDate now : Int) : Bool :=
  decide (expiryDate < now)

/-- Total lifetime constant of `enrichSubscription`: `const totalDays = 365`. -/
def totalDays : ℚ := 365

/-- Embedding of the `progressPercentage` computation of `enrichSubscription`:
`Math.max(0, Math.min(100, ((totalDays - daysUntilExpiry) / totalDays) * 100))`. -/
def progressPercentage (daysUntilExpiry : Int) : ℚ :=
  max 0 (min 100 ((totalDays - (daysUntilExpiry : ℚ)) / totalDays * 100))

/-- Embedding of the date-fns `differenceInDays(dateLeft, dateRight)` used by
the client paths (`getCertificateStatus` in `client/src/lib/date-utils.ts` and
`SubscriptionCard`): the number of full days between the two instants,
fractional days truncated toward zero. -/
def differenceInDays (dateLeft dateRight : Int) : Int :=
  Int.sign (dateLeft - dateRight) * (((dateLeft - dateRight).natAbs / msPerDay.natAbs : Nat) : Int)

theorem msPerDay_pos : (0 : Int) < msPerDay := by decide

theorem msPerDayQ_pos : (0 : ℚ) < ((msPerDay : Int) : ℚ) := by
  exact_mod_cast msPerDay_pos

/-- Helper: the characterization of `calculateDaysUntilExpiry` as a ceiling.
If `d` is the computed day count then `msPerDay * (d - 1) < expiry - now` and
`expiry - now ≤ msPerDay * d`. -/
theorem calculateDaysUntilExpiry_spec (expiryDate now : Int) :
    msPerDay * (calculateDaysUntilExpiry expiryDate now - 1) < expiryDate - now ∧
    expiryDate - now ≤ msPerDay * calculateDaysUntilExpiry expiryDate now := by
  have hceil : calculateDaysUntilExpiry expiryDate now =
      ⌈(((expiryDate - now : Int) : ℚ) / ((msPerDay : Int) : ℚ))⌉ := rfl
  obtain ⟨d, hd⟩ : ∃ d : Int,
      d = ⌈(((expiryDate - now : Int) : ℚ) / ((msPerDay : Int) : ℚ))⌉ := ⟨_, rfl⟩
  rw [hceil, ← hd]
  constructor
  · have h : ((d : Int) : ℚ) <
        ((expiryDate - now : Int) : ℚ) / ((msPerDay : Int) : ℚ) + 1 := by
      rw [hd]; exact Int.ceil_lt_add_one _
    have h2 : (((d - 1 : Int)) : ℚ) <
        ((expiryDate - now : Int) : ℚ) / ((msPerDay : Int) : ℚ) := by push_cast; push_cast at h; linarith
    rw [lt_div_iff₀ msPerDayQ_pos] at h2
    have h3 : (d - 1) * msPerDay < expiryDate - now := by exact_mod_cast h2
    linarith [h3]
  · have h : ((expiryDate - now : Int) : ℚ) / ((msPerDay : Int) : ℚ) ≤ ((d : Int) : ℚ) := by
      rw [hd]; exact Int.le_ceil _
    rw [div_le_iff₀ msPerDayQ_pos] at h
    have h3 : expiryDate - now ≤ d * msPerDay := by exact_mod_cast h
    linarith [h3]

/-- Helper: `calculateDaysUntilExpiry` computes the same value as the
executable integer formula `-((now - expiry) / msPerDay)` with Euclidean
division, which the kernel can evaluate on concrete inputs. -/
theorem calculateDaysUntilExpiry_eq_ediv (expiryDate now : Int) :
    calculateDaysUntilExpiry expiryDate now = -((now - expiryDate) / msPerDay) := by
  have hs := calculateDaysUntilExpiry_spec expiryDate now
  norm_num [msPerDay] at hs ⊢
  omega

/-- C1 counterexample: at expiry instant 0 and evaluation instant 1 ms later,
the record is classified expired (`now > expiry`) yet `daysUntilExpiry` is 0,
not negative, so the claimed equivalence is false at this input. -/
theorem c1_counterexample :
    ¬ (isExpired 0 1 = true ↔ calculateDaysUntilExpiry 0 1 < 0) := by
  intro h
  have h1 : isExpired 0 1 = true := by decide
  have h2 : ¬ calculateDaysUntilExpiry 0 1 < 0 := by
    rw [calculateDaysUntilExpiry_eq_ediv]
    decide
  exact h2 (h.mp h1)

/-- C1 (amended): a strictly negative `daysUntilExpiry` implies the record is
marked expired, but the equivalence holds only in that direction; the day
count is negative exactly when the evaluation instant is at least one whole
day past the expiry instant. -/
theorem expired_of_neg_daysUntilExpiry (expiryDate now : Int) :
    (calculateDaysUntilExpiry expiryDate now < 0 → isExpired expiryDate now = true) ∧
    (calculateDaysUntilExpiry expiryDate now < 0 ↔ expiryDate + msPerDay ≤ now) := by
  have hiff : calculateDaysUntilExpiry expiryDate now < 0 ↔ expiryDate + msPerDay ≤ now := by
    unfold calculateDaysUntilExpiry
    constructor
    · intro h
      have h1 : (⌈(((expiryDate - now : Int) : ℚ) / ((msPerDay : Int) : ℚ))⌉ : Int) ≤ -1 := by
        omega
      rw [Int.ceil_le] at h1
      rw [div_le_iff₀ msPerDayQ_pos] at h1
      have h2 : ((expiryDate - now : Int) : ℚ) ≤ ((-msPerDay : Int) : ℚ) := by
        push_cast; push_cast at h1; linarith
      have h3 : expiryDate - now ≤ -msPerDay := by exact_mod_cast h2
      omega
    · intro h
      have h2 : ((expiryDate - now : Int) : ℚ) ≤ ((-msPerDay : Int) : ℚ) := by
        have : expiryDate - now ≤ -msPerDay := by omega
        exact_mod_cast this
      have h3 : ((expiryDate - now : Int) : ℚ) / ((msPerDay : Int) : ℚ) ≤ ((-1 : Int) : ℚ) := by
        rw [div_le_iff₀ msPerDayQ_pos]
        push_cast
        push_cast at h2
        linarith
      have h4 := Int.ceil_le.mpr h3
      omega
  refine ⟨fun h => ?_, hiff⟩
  have h1 : expiryDate + msPerDay ≤ now := hiff.mp h
  have h2 : expiryDate < now := by
    have := msPerDay_pos
    omega
  simp [isExpired, h2]

/-- C1 witness: at expiry 0 and evaluation instant one full day later the day
count is negative, the record is expired, and both sides of the amended
equivalence hold. -/
theorem expired_of_neg_daysUntilExpiry_witness :
    isExpired 0 86400000 = true ∧ (0 : Int) + msPerDay ≤ 86400000 := by
  have h := expired_of_neg_daysUntilExpiry 0 86400000
  have hle : (0 : Int) + msPerDay ≤ 86400000 := by decide
  exact ⟨h.1 (h.2.mpr hle), hle⟩

/-- C4 counterexample: within the range `[0, 365]`, decreasing
`daysUntilExpiry` from 365 to 0 makes `progressPercentage` climb from 0 to
100, so the percentage is not non-increasing as the day count decreases. -/
theorem c4_counterexample :
    ¬ (progressPercentage 0 ≤ progressPercentage 365) := by
  have h0 : progressPercentage 0 = 100 := by
    unfold progressPercentage totalDays
    norm_num
  have h365 : progressPercentage 365 = 0 := by
    unfold progressPercentage totalDays
    norm_num
  rw [h0, h365]
  norm_num

/-- C4 (amended): `progressPercentage` is monotonically non-increasing as
`daysUntilExpiry` increases (equivalently, non-decreasing as the day count
falls), globally; above `totalDays` it is clamped to exactly 0 and below 0 it
is clamped to exactly 100. -/
theorem progressPercentage_antitone_clamped :
    (∀ d1 d2 : Int, d1 ≤ d2 → progressPercentage d2 ≤ progressPercentage d1) ∧
    (∀ d : Int, 365 < d → progressPercentage d = 0) ∧
    (∀ d : Int, d < 0 → progressPercentage d = 100) := by
  refine ⟨?_, ?_, ?_⟩
  · intro d1 d2 h
    unfold progressPercentage
    have hq : ((d1 : ℚ)) ≤ ((d2 : ℚ)) := by exact_mod_cast h
    have hx : (totalDays - (d2 : ℚ)) / totalDays * 100 ≤
        (totalDays - (d1 : ℚ)) / totalDays * 100 := by
      unfold totalDays
      have h1 : (365 : ℚ) - (d2 : ℚ) ≤ (365 : ℚ) - (d1 : ℚ) := by linarith
      have h2 : ((365 : ℚ) - (d2 : ℚ)) / 365 ≤ ((365 : ℚ) - (d1 : ℚ)) / 365 := by
        exact div_le_div_of_nonneg_right h1 (by norm_num)
      linarith
    exact max_le_max le_rfl (min_le_min le_rfl hx)
  · intro d hd
    unfold progressPercentage totalDays
    have hq : (365 : ℚ) < (d : ℚ) := by exact_mod_cast hd
    have hx : ((365 : ℚ) - (d : ℚ)) / 365 * 100 ≤ 0 := by
      have h1 : (365 : ℚ) - (d : ℚ) ≤ 0 := by linarith
      have h2 : ((365 : ℚ) - (d : ℚ)) / 365 ≤ 0 := by
        apply div_nonpos_of_nonpos_of_nonneg h1
        norm_num
      linarith
    rw [min_eq_right (le_trans hx (by norm_num))]
    exact max_eq_left hx
  · intro d hd
    unfold progressPercentage totalDays
    have hq : (d : ℚ) ≤ -1 := by exact_mod_cast (by omega : d ≤ -1)
    have hx : (100 : ℚ) ≤ ((365 : ℚ) - (d : ℚ)) / 365 * 100 := by
      rw [div_mul_eq_mul_div, le_div_iff₀ (by norm_num : (0 : ℚ) < 365)]
      linarith
    rw [min_eq_left hx]
    exact max_eq_right (by norm_num)

/-- C4 witness: the amended monotonicity and clamping evaluated at concrete
inputs 3 ≤ 5 (interior), 400 (above the range) and −3 (below the range). -/
theorem progressPercentage_antitone_clamped_witness :
    progressPercentage 5 ≤ progressPercentage 3 ∧
    progressPercentage 400 = 0 ∧ progressPercentage (-3) = 100 := by
  have h := progressPercentage_antitone_clamped
  exact ⟨h.1 3 5 (by norm_num), h.2.1 400 (by norm_num), h.2.2 (-3) (by norm_num)⟩

/-- C6 counterexample: for an artifact expiring 23.1 hours (83160000 ms) after
now, the storage-layer classifier reports 1 day, but the client-side
`differenceInDays` path reports 0, so not every classification path rounds
fractional days toward the later whole day. -/
theorem c6_counterexample :
    calculateDaysUntilExpiry 83160000 0 = 1 ∧ differenceInDays 83160000 0 = 0 ∧
    (0 : Int) < 83160000 := by
  refine ⟨?_, by decide, by decide⟩
  have h := calculateDaysUntilExpiry_spec 83160000 0
  simp only [msPerDay] at h
  omega

/-- C6 (amended): on the storage path, for every expiry instant strictly later
than now, `daysUntilExpiry` is the ceiling of the fractional day count: it is
at least 1 and is the unique integer `d` with
`msPerDay * (d - 1) < expiry - now ≤ msPerDay * d`; an artifact expiring 23.1
hours from now reports 1 there, while the client-side date-fns paths truncate
and report 0. -/
theorem calculateDaysUntilExpiry_ceil (expiryDate now : Int) (h : now < expiryDate) :
    1 ≤ calculateDaysUntilExpiry expiryDate now ∧
    msPerDay * (calculateDaysUntilExpiry expiryDate now - 1) < expiryDate - now ∧
    expiryDate - now ≤ msPerDay * calculateDaysUntilExpiry expiryDate now := by
  have hs := calculateDaysUntilExpiry_spec expiryDate now
  refine ⟨?_, hs.1, hs.2⟩
  unfold calculateDaysUntilExpiry
  have hq : (0 : ℚ) < ((expiryDate - now : Int) : ℚ) / ((msPerDay : Int) : ℚ) := by
    apply div_pos _ msPerDayQ_pos
    exact_mod_cast (by omega : (0 : Int) < expiryDate - now)
  exact Int.ceil_pos.mpr hq

/-- C6 witness: the amended ceiling property applied at the 23.1-hour input
(expiry 83160000 ms, now 0). -/
theorem calculateDaysUntilExpiry_ceil_witness :
    (0 : Int) < 83160000 ∧
    1 ≤ calculateDaysUntilExpiry 83160000 0 ∧
    msPerDay * (calculateDaysUntilExpiry 83160000 0 - 1) < 83160000 - 0 ∧
    83160000 - 0 ≤ msPerDay * calculateDaysUntilExpiry 83160000 0 :=
  ⟨by decide, calculateDaysUntilExpiry_ceil 83160000 0 (by decide)⟩

/-! Character and calendar infrastructure shared by the embeddings of
`shared/schema.ts` (`toDate`) and `services/dateExtractor.ts`. -/

/-- Whitespace test modelling the JavaScript `\s` class (restricted to the
ASCII whitespace characters relevant to the embedded strings). -/
def isSpaceChar (c : Char) : Bool :=
  c = ' ' || c = '\t' || c = '\n' || c = '\r'

/-- Digit test modelling the JavaScript `\d` class. -/
def isDigitChar (c : Char) : Bool :=
  '0' ≤ c && c ≤ '9'

/-- ASCII letter test modelling `[a-z]` under the `i` flag. -/
def isAlphaChar (c : Char) : Bool :=
  ('a' ≤ c && c ≤ 'z') || ('A' ≤ c && c ≤ 'Z')

/-- ASCII lower-casing, modelling `String.prototype.toLowerCase` on the ASCII
range. -/
def toLowerChar (c : Char) : Char :=
  if 'A' ≤ c && c ≤ 'Z' then Char.ofNat (c.toNat + 32) else c

/-- Numeric value of a digit character. -/
def digitVal (c : Char) : Nat := c.toNat - 48

/-- Digit character for a numeric value below 10. -/
def digitChar (n : Nat) : Char :=
  match n with
  | 0 => '0' | 1 => '1' | 2 => '2' | 3 => '3' | 4 => '4'
  | 5 => '5' | 6 => '6' | 7 => '7' | 8 => '8' | _ => '9'

/-- Numeric value of a digit string, most significant digit first. -/
def natOfDigits (l : List Char) : Nat :=
  l.foldl (fun acc c => 10 * acc + digitVal c) 0

/-- Embedding of `String.prototype.trim` on a character list. -/
def trimChars (s : List Char) : List Char :=
  ((s.dropWhile isSpaceChar).reverse.dropWhile isSpaceChar).reverse

/-- Gregorian leap-year rule, as implemented by the JavaScript `Date`
calendar. -/
def isLeapYear (y : Int) : Bool :=
  (y % 4 == 0 && y % 100 != 0) || y % 400 == 0

/-- Number of days of month `m` (1-based) of year `y` in the Gregorian
calendar of the JavaScript `Date` object. -/
def daysInMonth (y : Int) (m : Nat) : Nat :=
  if m = 2 then (if isLeapYear y then 29 else 28)
  else if m = 4 ∨ m = 6 ∨ m = 9 ∨ m = 11 then 30 else 31

/-- Calendar components of a JavaScript `Date` at local midnight: the
embedding identifies an instant produced by the date parsers with its
year/month/day triple (month and day 1-based). -/
structure SimpleDate where
  year : Int
  month : Nat
  day : Nat
deriving DecidableEq

/-- Embedding of `new Date("yyyy-mm-ddT00:00:00")` on an ISO-format string:
the V8 ISO path accepts the components only when they name a real calendar
date and yields an invalid date (NaN, modelled as `none`) otherwise; it never
rolls an out-of-range day over into a later month. -/
def mkDateISO (y : Int) (m d : Nat) : Option SimpleDate :=
  if 1 ≤ m ∧ m ≤ 12 ∧ 1 ≤ d ∧ d ≤ daysInMonth y m then some ⟨y, m, d⟩ else none

/-- Structural match of the regex `^(\d\x7b2\x7d)sep(\d\x7b2\x7d)sep(\d\x7b4\x7d)$`
used by the first two branches of `toDate` (separator `/` or `-`), returning
the day, month and year values. -/
def matchDmY (sep : Char) : List Char → Option (Nat × Nat × Nat)
  | [a, b, s1, c, d, s2, e, f, g, h] =>
    if (s1 == sep && s2 == sep) && isDigitChar a && isDigitChar b && isDigitChar c &&
        isDigitChar d && isDigitChar e && isDigitChar f && isDigitChar g && isDigitChar h then
      some (10 * digitVal a + digitVal b, 10 * digitVal c + digitVal d,
        1000 * digitVal e + 100 * digitVal f + 10 * digitVal g + digitVal h)
    else none
  | _ => none

/-- Structural match of the regex `^\d\x7b4\x7d-\d\x7b2\x7d-\d\x7b2\x7d$` of the
third branch of `toDate`, returning year, month and day. -/
def matchYmd : List Char → Option (Nat × Nat × Nat)
  | [a, b, c, d, s1, e, f, s2, g, h] =>
    if (s1 == '-' && s2 == '-') && isDigitChar a && isDigitChar b && isDigitChar c &&
        isDigitChar d && isDigitChar e && isDigitChar f && isDigitChar g && isDigitChar h then
      some (1000 * digitVal a + 100 * digitVal b + 10 * digitVal c + digitVal d,
        10 * digitVal e + digitVal f, 10 * digitVal g + digitVal h)
    else none
  | _ => none

/-- Structural match of the date-time regex
`^\d\x7b4\x7d-\d\x7b2\x7d-\d\x7b2\x7d \d\x7b2\x7d:\d\x7b2\x7d:\d\x7b2\x7d$` of the
fourth branch of `toDate`, returning date and time components. -/
def matchYmdTime : List Char → Option ((Nat × Nat × Nat) × (Nat × Nat × Nat))
  | [a, b, c, d, s1, e, f, s2, g, h, sp, h1, h2, c1, m1, m2, c2, x1, x2] =>
    if (s1 == '-' && s2 == '-' && sp == ' ' && c1 == ':' && c2 == ':') &&
        isDigitChar a && isDigitChar b && isDigitChar c && isDigitChar d &&
        isDigitChar e && isDigitChar f && isDigitChar g && isDigitChar h &&
        isDigitChar h1 && isDigitChar h2 && isDigitChar m1 && isDigitChar m2 &&
        isDigitChar x1 && isDigitChar x2 then
      some ((1000 * digitVal a + 100 * digitVal b + 10 * digitVal c + digitVal d,
        10 * digitVal e + digitVal f, 10 * digitVal g + digitVal h),
        (10 * digitVal h1 + digitVal h2, 10 * digitVal m1 + digitVal m2,
        10 * digitVal x1 + digitVal x2))
    else none
  | _ => none

/-- Embedding of `toDate` from `shared/schema.ts` on string inputs. Branches,
in source order: `dd/MM/yyyy`, `dd-MM-yyyy`, bare `YYYY-MM-DD`, and
`YYYY-MM-DD HH:MM:SS`; every matched branch rebuilds an ISO string and hands
it to the `Date` constructor (modelled by `mkDateISO`; a NaN-carrying invalid
`Date`, which the source returns unchecked from the final `dZ` fallback of
each branch, is modelled as `none`). The trailing generic branches (`new
Date(str)` as-is and with a `Z` suffix) are reached only by strings outside
every recognized layout and are modelled as absent. -/
def toDate (val : String) : Option SimpleDate :=
  let str := trimChars val.data
  match matchDmY '/' str with
  | some (dd, mm, yyyy) => mkDateISO yyyy mm dd
  | none =>
  match matchDmY '-' str with
  | some (dd, mm, yyyy) => mkDateISO yyyy mm dd
  | none =>
  match matchYmd str with
  | some (y, m, d) => mkDateISO y m d
  | none =>
  match matchYmdTime str with
  | some ((y, m, d), (hh, mi, ss)) =>
    if hh ≤ 23 && mi ≤ 59 && ss ≤ 59 then mkDateISO y m d else none
  | none => none

/-- Day-overflow normalization of the JavaScript `Date(year, monthIndex, day)`
constructor: a day count exceeding the length of the month rolls over into the
following months. The fuel bound 12 covers every day value producible by the
one-or-two-digit regex captures that reach this constructor. -/
def rollForward : Nat → Int → Nat → Nat → SimpleDate
  | 0, y, m, d => ⟨y, m, d⟩
  | fuel + 1, y, m, d =>
    if d ≤ daysInMonth y m then ⟨y, m, d⟩
    else if m = 12 then rollForward fuel (y + 1) 1 (d - 31)
    else rollForward fuel y (m + 1) (d - daysInMonth y m)

/-- Embedding of `new Date(year, monthIndex, day)`: the components constructor
never rejects its arguments; an out-of-range month index first rolls into the
year, then an out-of-range day rolls into the following months (day 0 selects
the last day of the preceding month). -/
def jsMakeDate (year monthIndex : Int) (day : Nat) : SimpleDate :=
  let y := year + monthIndex.fdiv 12
  let m : Nat := (monthIndex.emod 12).toNat + 1
  if day = 0 then
    if m = 1 then ⟨y - 1, 12, 31⟩ else ⟨y, m - 1, daysInMonth y (m - 1)⟩
  else rollForward 12 y m day

/-- English month names recognized by the V8 legacy date parser. -/
def monthNames : List String :=
  ["january", "february", "march", "april", "may", "june",
   "july", "august", "september", "october", "november", "december"]

/-- Lookup of a (lower-case) word among the month names, 1-based result. -/
def findMonth : List String → Nat → List Char → Option Nat
  | [], _, _ => none
  | nm :: rest, i, w => if w.isPrefixOf nm.data then some i else findMonth rest (i + 1) w

/-- Month denoted by a word: the V8 legacy parser accepts a word of at least
three letters that is a prefix of an English month name. -/
def monthFromWord (w : List Char) : Option Nat :=
  if w.length < 3 then none else findMonth monthNames 1 w

/-- Embedding of `new Date("Month Day, Year")` as invoked by the named-month
branch of `DateExtractor.parseDate`: the V8 legacy parser resolves the month
word case-insensitively and builds the date with the rolling components
constructor; an unrecognized word or a zero day yields NaN (modelled as
`none`). -/
def jsParseNamedDate (w : List Char) (d y : Nat) : Option SimpleDate :=
  match monthFromWord (w.map toLowerChar) with
  | none => none
  | some m => if d = 0 then none else some (rollForward 12 (y : Int) m d)

/-- Structural match of the named-month format
`^([a-z]+)\s+(\d\x7b1,2\x7d),?\s+(\d\x7b4\x7d)$` (case-insensitive) of
`DateExtractor.parseDate`, returning the month word, day and year. -/
def matchNamedMonth (s : List Char) : Option (List Char × Nat × Nat) :=
  let w := s.takeWhile isAlphaChar
  let r1 := s.dropWhile isAlphaChar
  if w.isEmpty then none else
  let sp := r1.takeWhile isSpaceChar
  let r2 := r1.dropWhile isSpaceChar
  if sp.isEmpty then none else
  let dg := r2.takeWhile isDigitChar
  let r3 := r2.dropWhile isDigitChar
  if dg.length = 0 || dg.length > 2 then none else
  let r4 := match r3 with
    | ',' :: rest => rest
    | other => other
  let sp2 := r4.takeWhile isSpaceChar
  let r5 := r4.dropWhile isSpaceChar
  if sp2.isEmpty then none else
  if r5.length = 4 && r5.all isDigitChar then
    some (w, natOfDigits dg, natOfDigits r5)
  else none

/-- Structural match of the numeric format
`^(\d\x7b1,2\x7d)[\/\-](\d\x7b1,2\x7d)[\/\-](\d\x7b4\x7d)$` of
`DateExtractor.parseDate` (read there as month/day/year), returning the three
captured values in order. -/
def matchMDY (s : List Char) : Option (Nat × Nat × Nat) :=
  let a := s.takeWhile isDigitChar
  let r1 := s.dropWhile isDigitChar
  if a.length = 0 || a.length > 2 then none else
  match r1 with
  | s1 :: r2 =>
    if s1 = '/' || s1 = '-' then
      let b := r2.takeWhile isDigitChar
      let r3 := r2.dropWhile isDigitChar
      if b.length = 0 || b.length > 2 then none else
      match r3 with
      | s2 :: r4 =>
        if s2 = '/' || s2 = '-' then
          if r4.length = 4 && r4.all isDigitChar then
            some (natOfDigits a, natOfDigits b, natOfDigits r4)
          else none
        else none
      | [] => none
    else none
  | [] => none

/-- Structural match of the year-first numeric format
`^(\d\x7b4\x7d)[\/\-](\d\x7b1,2\x7d)[\/\-](\d\x7b1,2\x7d)$` of
`DateExtractor.parseDate`, returning year, month and day. -/
def matchYMD2 (s : List Char) : Option (Nat × Nat × Nat) :=
  let a := s.takeWhile isDigitChar
  if a.length ≠ 4 then none else
  match s.drop 4 with
  | s1 :: r2 =>
    if s1 = '/' || s1 = '-' then
      let b := r2.takeWhile isDigitChar
      let r3 := r2.dropWhile isDigitChar
      if b.length = 0 || b.length > 2 then none else
      match r3 with
      | s2 :: r4 =>
        if s2 = '/' || s2 = '-' then
          if (1 ≤ r4.length && r4.length ≤ 2) && r4.all isDigitChar then
            some (natOfDigits a, natOfDigits b, natOfDigits r4)
          else none
        else none
      | [] => none
    else none
  | [] => none

/-- Embedding of `DateExtractor.parseDate`. The source tries the named-month
format, then month/day/year, then year/month/day; a numeric match builds the
date with `new Date(year, month - 1, day)` (the rolling constructor, which for
the shapes reaching it never yields NaN, so the construction always returns);
a named-month match whose engine parse is NaN falls through the remaining
formats (which cannot match a letter-initial string) to the generic
`new Date(cleanDateStr)` fallback, which parses the same string and is NaN
again — so the whole call returns null, modelled as `none`. Strings outside
all three formats reach the same generic fallback; every capture shape the
extractor produces is covered by the three formats, and the fallback is
modelled as absent. -/
def parseDate (dateStr : String) : Option SimpleDate :=
  let c := trimChars dateStr.data
  match matchNamedMonth c with
  | some (w, d, y) => jsParseNamedDate w d y
  | none =>
  match matchMDY c with
  | some (mo, d, y) => some (jsMakeDate (y : Int) ((mo : Int) - 1) d)
  | none =>
  match matchYMD2 c with
  | some (y, mo, d) => some (jsMakeDate (y : Int) ((mo : Int) - 1) d)
  | none => none

@[simp]
theorem isDigitChar_digitChar (n : Nat) : isDigitChar (digitChar n) = true := by
  match n with
  | 0 | 1 | 2 | 3 | 4 | 5 | 6 | 7 | 8 => rfl
  | _ + 9 => rfl

@[simp]
theorem isSpaceChar_digitChar (n : Nat) : isSpaceChar (digitChar n) = false := by
  match n with
  | 0 | 1 | 2 | 3 | 4 | 5 | 6 | 7 | 8 => rfl
  | _ + 9 => rfl

theorem digitVal_digitChar (n : Nat) (h : n ≤ 9) : digitVal (digitChar n) = n := by
  match n with
  | 0 | 1 | 2 | 3 | 4 | 5 | 6 | 7 | 8 | 9 => rfl
  | _ + 10 => omega

/-- Day/month/year string of the shape accepted by the first two branches of
`toDate`: two-digit day, separator, two-digit month, separator, four-digit
year. -/
def dmyChars (sep : Char) (d m y : Nat) : List Char :=
  [digitChar (d / 10), digitChar (d % 10), sep,
   digitChar (m / 10), digitChar (m % 10), sep,
   digitChar (y / 1000), digitChar (y / 100 % 10), digitChar (y / 10 % 10), digitChar (y % 10)]

/-- String form of `dmyChars`. -/
def dmyString (sep : Char) (d m y : Nat) : String := String.mk (dmyChars sep d m y)

/-- Helper: the day/month/year matcher recovers the three numeric components
from a formatted day/month/year string. -/
theorem matchDmY_dmyChars (sep : Char) (d m y : Nat) (hd : d ≤ 99) (hm : m ≤ 99)
    (hy : y ≤ 9999) :
    matchDmY sep (dmyChars sep d m y) = some (d, m, y) := by
  have h1 : digitVal (digitChar (d / 10)) = d / 10 := digitVal_digitChar _ (by omega)
  have h2 : digitVal (digitChar (d % 10)) = d % 10 := digitVal_digitChar _ (by omega)
  have h3 : digitVal (digitChar (m / 10)) = m / 10 := digitVal_digitChar _ (by omega)
  have h4 : digitVal (digitChar (m % 10)) = m % 10 := digitVal_digitChar _ (by omega)
  have h5 : digitVal (digitChar (y / 1000)) = y / 1000 := digitVal_digitChar _ (by omega)
  have h6 : digitVal (digitChar (y / 100 % 10)) = y / 100 % 10 := digitVal_digitChar _ (by omega)
  have h7 : digitVal (digitChar (y / 10 % 10)) = y / 10 % 10 := digitVal_digitChar _ (by omega)
  have h8 : digitVal (digitChar (y % 10)) = y % 10 := digitVal_digitChar _ (by omega)
  simp [dmyChars, matchDmY, h1, h2, h3, h4, h5, h6, h7, h8]
  refine ⟨by omega, by omega, by omega⟩

/-- Helper: the slash-separated matcher rejects a dash-separated string. -/
theorem matchDmY_slash_on_dash (d m y : Nat) :
    matchDmY '/' (dmyChars '-' d m y) = none := by
  have hne : (('-' : Char) == '/') = false := by decide
  simp [dmyChars, matchDmY, hne]

/-- Helper: a formatted day/month/year string has no surrounding whitespace,
so trimming leaves it unchanged. -/
theorem trimChars_dmyChars (sep : Char) (d m y : Nat) :
    trimChars (dmyChars sep d m y) = dmyChars sep d m y := by
  simp [trimChars, dmyChars, List.dropWhile, isSpaceChar_digitChar]

/-- C2: for every two-digit day and month and four-digit year with day in
01–31, month in 01–12, naming a real calendar date, `toDate` accepts the
`dd/MM/yyyy` (and `dd-MM-yyyy`) string under the first day/month/year layout
and returns exactly that year, month and day. -/
theorem toDate_dayMonthYear_roundTrip (d m y : Nat) (hd1 : 1 ≤ d) (hd : d ≤ 31)
    (hm1 : 1 ≤ m) (hm : m ≤ 12) (hy1 : 1000 ≤ y) (hy : y ≤ 9999)
    (hreal : d ≤ daysInMonth (y : Int) m) :
    toDate (dmyString '/' d m y) = some ⟨(y : Int), m, d⟩ ∧
    toDate (dmyString '-' d m y) = some ⟨(y : Int), m, d⟩ := by
  constructor
  · simp only [toDate, dmyString]
    rw [trimChars_dmyChars '/' d m y]
    rw [matchDmY_dmyChars '/' d m y (by omega) (by omega) (by omega)]
    show mkDateISO (y : Int) m d = some ⟨(y : Int), m, d⟩
    unfold mkDateISO
    rw [if_pos ⟨hm1, hm, hd1, hreal⟩]
  · simp only [toDate, dmyString]
    rw [trimChars_dmyChars '-' d m y]
    rw [matchDmY_slash_on_dash d m y]
    rw [matchDmY_dmyChars '-' d m y (by omega) (by omega) (by omega)]
    show mkDateISO (y : Int) m d = some ⟨(y : Int), m, d⟩
    unfold mkDateISO
    rw [if_pos ⟨hm1, hm, hd1, hreal⟩]

/-- C2 witness: the round trip evaluated at the real leap-year date
29/02/2024 with both separators. -/
theorem toDate_dayMonthYear_roundTrip_witness :
    toDate (dmyString '/' 29 2 2024) = some ⟨(2024 : Int), 2, 29⟩ ∧
    toDate (dmyString '-' 29 2 2024) = some ⟨(2024 : Int), 2, 29⟩ :=
  toDate_dayMonthYear_roundTrip 29 2 2024 (by decide) (by decide) (by decide)
    (by decide) (by decide) (by decide) (by decide)

/-! Model of the `InMemoryStorage` certificate and subscription paths of
`server/storage.ts`: records are enriched at create/update time and the read
operations return the stored records unchanged. -/

/-- Stored certificate record of `InMemoryStorage`, restricted to the fields
the derived-field claims depend on: the raw expiry instant and the derived
`isExpired` / `daysUntilExpiry` values as stored. -/
structure CertRecord where
  id : String
  expiryDate : Int
  isExpired : Bool
  daysUntilExpiry : Int
deriving DecidableEq

/-- Stored subscription record of `InMemoryStorage`, restricted in the same
way. -/
structure SubRecord where
  id : String
  endDate : Int
  isExpired : Bool
  daysUntilExpiry : Int
  progressPercentage : ℚ
deriving DecidableEq

/-- Embedding of `InMemoryStorage.enrichCertificate`, evaluated with the
clock reading `now`. -/
def enrichCertificate (id : String) (expiryDate now : Int) : CertRecord :=
  ⟨id, expiryDate, isExpired expiryDate now, calculateDaysUntilExpiry expiryDate now⟩

/-- Embedding of `InMemoryStorage.enrichSubscription`, evaluated with the
clock reading `now`. -/
def enrichSubscription (id : String) (endDate now : Int) : SubRecord :=
  ⟨id, endDate, isExpired endDate now, calculateDaysUntilExpiry endDate now,
    progressPercentage (calculateDaysUntilExpiry endDate now)⟩

/-- Embedding of `InMemoryStorage.createCertificate`: the new record is
enriched once, at creation time, and pushed onto the item list. -/
def imCreateCertificate (items : List CertRecord) (id : String) (expiryDate now : Int) :
    List CertRecord :=
  items ++ [enrichCertificate id expiryDate now]

/-- Embedding of `InMemoryStorage.getCertificate`: a plain `find` over the
stored items, with no re-enrichment at read time. -/
def imGetCertificate (items : List CertRecord) (id : String) : Option CertRecord :=
  items.find? (fun c => c.id == id)

/-- Status filter variants of `SearchCertificatesParams.status`. -/
inductive StatusFilter
  | all
  | valid
  | expiring
  | expired
deriving DecidableEq

/-- Insertion step of the ascending sort by expiry instant used by
`InMemoryStorage.getCertificates`. -/
def insertByExpiry (c : CertRecord) : List CertRecord → List CertRecord
  | [] => [c]
  | x :: xs => if c.expiryDate < x.expiryDate then c :: x :: xs else x :: insertByExpiry c xs

/-- Ascending sort by expiry instant (`results.sort` on `getTime`
differences). -/
def sortByExpiry : List CertRecord → List CertRecord
  | [] => []
  | x :: xs => insertByExpiry x (sortByExpiry xs)

/-- Embedding of `InMemoryStorage.getCertificates`: status filtering against
a fresh `now`, sort by expiry date, then offset/limit slicing — the returned
records themselves are the stored ones, with no re-enrichment at read time. -/
def imGetCertificates (items : List CertRecord) (status : StatusFilter)
    (offset limit : Option Nat) (now : Int) : List CertRecord :=
  let results := match status with
    | .all => items
    | .expired => items.filter (fun c => decide (c.expiryDate < now))
    | .expiring => items.filter (fun c =>
        decide (now ≤ c.expiryDate) && decide (c.expiryDate ≤ now + 30 * 24 * 3600 * 1000))
    | .valid => items.filter (fun c => decide (now + 30 * 24 * 3600 * 1000 < c.expiryDate))
  let sorted := sortByExpiry results
  let afterOffset := match offset with
    | some o => sorted.drop o
    | none => sorted
  match limit with
  | some l => afterOffset.take l
  | none => afterOffset

/-- Embedding of `InMemoryStorage.getSubscriptions`: the stored list is
returned as-is. -/
def imGetSubscriptions (items : List SubRecord) : List SubRecord := items

/-- C5: reads through `InMemoryStorage` return the derived fields computed at
the record's last write, not a fresh recomputation. A certificate created at
time 0 with expiry 10 days later is stored with `isExpired = false` and
`daysUntilExpiry = 10`; a read 20 days later with the `expired` status filter
selects the record by a fresh comparison yet returns the stale stored fields,
while a fresh classification at read time gives `isExpired = true` and
`daysUntilExpiry = -10`; subscriptions reads likewise return the stored
records unchanged. -/
theorem c5_inMemory_stale_read :
    imGetCertificates (imCreateCertificate [] "c1" (10 * msPerDay) 0)
        StatusFilter.expired none none (20 * msPerDay)
      = [⟨"c1", 10 * msPerDay, false, 10⟩] ∧
    isExpired (10 * msPerDay) (20 * msPerDay) = true ∧
    calculateDaysUntilExpiry (10 * msPerDay) (20 * msPerDay) = -10 ∧
    (∀ items : List SubRecord, imGetSubscriptions items = items) := by
  have h10 : calculateDaysUntilExpiry 864000000 0 = 10 := by
    rw [calculateDaysUntilExpiry_eq_ediv]; decide
  refine ⟨?_, by decide, ?_, fun items => rfl⟩
  · simp [imCreateCertificate, enrichCertificate, imGetCertificates, sortByExpiry,
      insertByExpiry, isExpired, h10, msPerDay]
  · rw [calculateDaysUntilExpiry_eq_ediv]; decide

/-- C3 counterexample: the extractor's normalizer does not return absent on
the structurally numeric but non-existent date 31/02/2024: it reads the
string as month 31, day 02, year 2024, and the rolling `Date` constructor
silently turns month index 30 into July 2026, yielding a present date. -/
theorem c3_counterexample :
    parseDate "31/02/2024" = some ⟨2026, 7, 2⟩ := by decide

/-- C3 (amended): of the two date normalizers, only `toDate` of
`shared/schema.ts` rejects the non-existent date 31/02/2024 (no valid instant
is produced, and nothing is rolled forward); `DateExtractor.parseDate`
instead interprets the numeric layout as month/day/year and rolls the
out-of-range month forward, returning 2026-07-02. -/
theorem toDate_rejects_parseDate_rolls :
    toDate "31/02/2024" = none ∧ parseDate "31/02/2024" = some ⟨2026, 7, 2⟩ :=
  ⟨by decide, by decide⟩

/-! Embedding of `DateExtractor.extractExpiryDate` and its pattern table.
Each regular expression of `datePatterns` is modelled by an executable
backtracking matcher producing candidate continuations in the same priority
order as the JavaScript engine (leftmost match position first; within a
position, greedy quantifiers longest-first, optional groups present-first,
alternations in written order, lazy star shortest-first). The `i` flag is
modelled by lower-casing the subject text up front (ASCII), which leaves the
observable outputs — the parsed date and the confidence score — unchanged. -/

/-- Backtracking matcher: consumes a prefix of the input and returns the
possible remainders, in priority order. -/
def Matcher : Type := List Char → List (List Char)

/-- Literal-word matcher. -/
def mlit (w : List Char) : Matcher := fun s =>
  if w.isPrefixOf s then [s.drop w.length] else []

/-- Single-character class matcher. -/
def mchar (p : Char → Bool) : Matcher := fun s =>
  match s with
  | [] => []
  | c :: rest => if p c then [rest] else []

/-- Sequencing of matchers. -/
def mseq (a b : Matcher) : Matcher := fun s => (a s).flatMap b

/-- Ordered alternation of matchers (first alternative preferred). -/
def malt (a b : Matcher) : Matcher := fun s => a s ++ b s

/-- Greedy optional group (present-first). -/
def mopt (a : Matcher) : Matcher := fun s => a s ++ [s]

/-- Greedy character-class plus (`+`), longest consumption first. -/
def mplus (p : Char → Bool) : Matcher := fun s =>
  let run := (s.takeWhile p).length
  (List.range run).map (fun i => s.drop (run - i))

/-- Greedy character-class star (`*`), longest consumption first. -/
def mstar (p : Char → Bool) : Matcher := fun s =>
  let run := (s.takeWhile p).length
  (List.range (run + 1)).map (fun i => s.drop (run - i))

/-- Greedy bounded repetition of a character class (`\x7blo,hi\x7d`),
longest consumption first. -/
def mrep (p : Char → Bool) (lo hi : Nat) : Matcher := fun s =>
  let run := min ((s.takeWhile p).length) hi
  if run < lo then []
  else (List.range (run - lo + 1)).map (fun i => s.drop (run - i))

/-- Exact repetition of a character class (`\x7bk\x7d`). -/
def mexact (p : Char → Bool) (k : Nat) : Matcher := fun s =>
  if k ≤ (s.takeWhile p).length then [s.drop k] else []

/-- Lazy any-character star (`.*?`), shortest consumption first; in the
collapsed subject text no line terminators occur, so the any-character class
is total. -/
def mlazyStar : Matcher := fun s => s.tails

/-- Capturing matcher: returns the captured span together with the
remainder. -/
def CapMatcher : Type := List Char → List (List Char × List Char)

/-- Capture of everything a matcher consumes. -/
def mcap (a : Matcher) : CapMatcher := fun s =>
  (a s).map (fun r => (s.take (s.length - r.length), r))

/-- Attempt of a pattern (non-capturing prefix, then trailing capture group)
at the start of `s`: the first backtracking success yields the overall
matched text (`match[0]`) and the capture (`match[1]`). -/
def tryPatternAt (pre : Matcher) (cap : CapMatcher) (s : List Char) :
    Option (List Char × List Char) :=
  match ((pre s).flatMap cap).head? with
  | some (c, rest) => some (s.take (s.length - rest.length), c)
  | none => none

/-- Unanchored scan: the leftmost position with a match wins, as with
`String.prototype.match` on a non-global regex. -/
def scanPattern (pre : Matcher) (cap : CapMatcher) : List Char → Option (List Char × List Char)
  | [] => tryPatternAt pre cap []
  | c :: rest =>
    match tryPatternAt pre cap (c :: rest) with
    | some r => some r
    | none => scanPattern pre cap rest

/-- Label alternation `(?:expir[ey]|valid|expires?)` of the first pattern
group. -/
def labelAlt : Matcher :=
  malt (mseq (mlit "expir".data) (mchar (fun c => c = 'e' || c = 'y')))
    (malt (mlit "valid".data)
      (mseq (mlit "expire".data) (mopt (mlit "s".data))))

/-- Qualifier word alternation `(?:date|on|until|through|thru)`. -/
def qualifierWords : Matcher :=
  malt (mlit "date".data) (malt (mlit "on".data)
    (malt (mlit "until".data) (malt (mlit "through".data) (mlit "thru".data))))

/-- Optional qualifier `(?:\s+(?:date|on|until|through|thru))?`. -/
def qualifierOpt : Matcher := mopt (mseq (mplus isSpaceChar) qualifierWords)

/-- Separator `\s*:?\s*` between label and date. -/
def sepColon : Matcher :=
  mseq (mstar isSpaceChar) (mseq (mopt (mlit ":".data)) (mstar isSpaceChar))

/-- Non-capturing prefix of patterns 1–3:
`(?:expir[ey]|valid|expires?)(?:\s+(?:date|on|until|through|thru))?\s*:?\s*`. -/
def preLabel : Matcher := mseq labelAlt (mseq qualifierOpt sepColon)

/-- Non-capturing prefix of patterns 4–6:
`(?:valid\s+(?:until|through|thru))\s*:?\s*`. -/
def preValidUntil : Matcher :=
  mseq (mseq (mlit "valid".data) (mseq (mplus isSpaceChar)
    (malt (mlit "until".data) (malt (mlit "through".data) (mlit "thru".data))))) sepColon

/-- Non-capturing prefix of patterns 7–9: `expir[ey].*?` with a lazy gap. -/
def preLoose : Matcher :=
  mseq (mseq (mlit "expir".data) (mchar (fun c => c = 'e' || c = 'y'))) mlazyStar

/-- Lower-case ASCII letter class, modelling `[a-z]` on the lower-cased
subject. -/
def isLowerChar (c : Char) : Bool := 'a' ≤ c && c ≤ 'z'

/-- Slash-or-dash separator class `[\/\-]`. -/
def isSlashDash (c : Char) : Bool := c = '/' || c = '-'

/-- Named-month capture `([a-z]+ \d\x7b1,2\x7d,?\s+\d\x7b4\x7d)`. -/
def capNamed : CapMatcher :=
  mcap (mseq (mplus isLowerChar) (mseq (mlit " ".data) (mseq (mrep isDigitChar 1 2)
    (mseq (mopt (mlit ",".data)) (mseq (mplus isSpaceChar) (mexact isDigitChar 4))))))

/-- Slashed numeric capture `(\d\x7b1,2\x7d[\/\-]\d\x7b1,2\x7d[\/\-]\d\x7b4\x7d)`. -/
def capNum1 : CapMatcher :=
  mcap (mseq (mrep isDigitChar 1 2) (mseq (mchar isSlashDash) (mseq (mrep isDigitChar 1 2)
    (mseq (mchar isSlashDash) (mexact isDigitChar 4)))))

/-- Year-first numeric capture `(\d\x7b4\x7d[\/\-]\d\x7b1,2\x7d[\/\-]\d\x7b1,2\x7d)`. -/
def capNum2 : CapMatcher :=
  mcap (mseq (mexact isDigitChar 4) (mseq (mchar isSlashDash) (mseq (mrep isDigitChar 1 2)
    (mseq (mchar isSlashDash) (mrep isDigitChar 1 2)))))

/-- One entry of the `datePatterns` table: the regex source text (used by the
confidence scoring) together with its matcher. -/
structure DatePattern where
  src : String
  pre : Matcher
  cap : CapMatcher

/-- Source text of pattern 1 of the table (label prefix, named-month
capture). -/
def src1 : String :=
  "(?:expir[ey]|valid|expires?)(?:\\s+(?:date|on|until|through|thru))?\\s*:?\\s*([a-z]+ \\d\x7b1,2\x7d,?\\s+\\d\x7b4\x7d)"

/-- Source text of pattern 2 (label prefix, slashed numeric capture). -/
def src2 : String :=
  "(?:expir[ey]|valid|expires?)(?:\\s+(?:date|on|until|through|thru))?\\s*:?\\s*(\\d\x7b1,2\x7d[\\/\\-]\\d\x7b1,2\x7d[\\/\\-]\\d\x7b4\x7d)"

/-- Source text of pattern 3 (label prefix, year-first capture). -/
def src3 : String :=
  "(?:expir[ey]|valid|expires?)(?:\\s+(?:date|on|until|through|thru))?\\s*:?\\s*(\\d\x7b4\x7d[\\/\\-]\\d\x7b1,2\x7d[\\/\\-]\\d\x7b1,2\x7d)"

/-- Source text of pattern 4 (`valid until` prefix, named-month capture). -/
def src4 : String :=
  "(?:valid\\s+(?:until|through|thru))\\s*:?\\s*([a-z]+ \\d\x7b1,2\x7d,?\\s+\\d\x7b4\x7d)"

/-- Source text of pattern 5 (`valid until` prefix, slashed numeric
capture). -/
def src5 : String :=
  "(?:valid\\s+(?:until|through|thru))\\s*:?\\s*(\\d\x7b1,2\x7d[\\/\\-]\\d\x7b1,2\x7d[\\/\\-]\\d\x7b4\x7d)"

/-- Source text of pattern 6 (`valid until` prefix, year-first capture). -/
def src6 : String :=
  "(?:valid\\s+(?:until|through|thru))\\s*:?\\s*(\\d\x7b4\x7d[\\/\\-]\\d\x7b1,2\x7d[\\/\\-]\\d\x7b1,2\x7d)"

/-- Source text of pattern 7 (loose `expir` prefix, named-month capture). -/
def src7 : String := "expir[ey].*?([a-z]+ \\d\x7b1,2\x7d,?\\s+\\d\x7b4\x7d)"

/-- Source text of pattern 8 (loose `expir` prefix, slashed numeric
capture). -/
def src8 : String := "expir[ey].*?(\\d\x7b1,2\x7d[\\/\\-]\\d\x7b1,2\x7d[\\/\\-]\\d\x7b4\x7d)"

/-- Source text of pattern 9 (loose `expir` prefix, year-first capture). -/
def src9 : String := "expir[ey].*?(\\d\x7b4\x7d[\\/\\-]\\d\x7b1,2\x7d[\\/\\-]\\d\x7b1,2\x7d)"

/-- The nine-entry `DateExtractor.datePatterns` table, in source order, each
carrying the literal `RegExp.source` text of the original pattern. -/
def datePatterns : List DatePattern :=
  [⟨src1, preLabel, capNamed⟩,
   ⟨src2, preLabel, capNum1⟩,
   ⟨src3, preLabel, capNum2⟩,
   ⟨src4, preValidUntil, capNamed⟩,
   ⟨src5, preValidUntil, capNum1⟩,
   ⟨src6, preValidUntil, capNum2⟩,
   ⟨src7, preLoose, capNamed⟩,
   ⟨src8, preLoose, capNum1⟩,
   ⟨src9, preLoose, capNum2⟩]

/-- Five years in milliseconds, the window constant of
`DateExtractor.isValidExpiryDate`: `5 * 365 * 24 * 60 * 60 * 1000`. -/
def fiveYearsMs : Int := 5 * 365 * 24 * 60 * 60 * 1000

/-- Days from the civil epoch 1970-01-01 of a Gregorian year/month/day (the
standard days-from-civil computation), giving the day number that underlies
the millisecond value of a `Date` at midnight. -/
def daysFromCivil (y : Int) (m : Nat) (d : Nat) : Int :=
  let yAdj := if m ≤ 2 then y - 1 else y
  let era := yAdj.fdiv 400
  let yoe := yAdj - era * 400
  let mp : Int := if 3 ≤ m then (m : Int) - 3 else (m : Int) + 9
  let doy := (153 * mp + 2).fdiv 5 + (d : Int) - 1
  let doe := yoe * 365 + yoe.fdiv 4 - yoe.fdiv 100 + doy
  era * 146097 + doe - 719468

/-- Millisecond timestamp of a parsed date at midnight (timezone modelled as
UTC). -/
def dateToMillis (d : SimpleDate) : Int :=
  msPerDay * daysFromCivil d.year d.month d.day

/-- Embedding of `DateExtractor.isValidExpiryDate`: the parsed date is
accepted only within five years either side of the current instant
(`date >= fiveYearsAgo && date <= fiveYearsFromNow`). -/
def isValidExpiryDate (d : SimpleDate) (now : Int) : Bool :=
  decide (now - fiveYearsMs ≤ dateToMillis d) && decide (dateToMillis d ≤ now + fiveYearsMs)

/-- Substring test modelling `String.prototype.includes`. -/
def containsStr (hay needle : List Char) : Bool :=
  hay.tails.any (fun t => needle.isPrefixOf t)

/-- Source-based part of `DateExtractor.calculateConfidence`: base 0.5, then
`+0.3` if the pattern source contains `expir`, `+0.2` if it contains `valid`,
`+0.1` if it contains a colon, applied in source order. -/
def sourceConfidence (src : String) : ℚ :=
  let c1 : ℚ := 5 / 10
  let c2 := if containsStr src.data "expir".data then c1 + 3 / 10 else c1
  let c3 := if containsStr src.data "valid".data then c2 + 2 / 10 else c2
  if containsStr src.data ":".data then c3 + 1 / 10 else c3

/-- Embedding of `DateExtractor.calculateConfidence`: the source bonuses,
then `+0.2` if the matched text contains `expiry date`, `+0.2` for
`valid until`, `+0.15` for `expires`, capped at 0.95. The matched text is
already lower-case here because the subject was lower-cased up front,
matching the `matchedText.toLowerCase()` checks of the source. -/
def calculateConfidence (src : String) (matchedText : List Char) : ℚ :=
  let c4 := sourceConfidence src
  let c5 := if containsStr matchedText "expiry date".data then c4 + 2 / 10 else c4
  let c6 := if containsStr matchedText "valid until".data then c5 + 2 / 10 else c5
  let c7 := if containsStr matchedText "expires".data then c6 + 15 / 100 else c6
  min c7 (95 / 100)

/-- Result record of `extractExpiryDate`: `\x7b date, confidence \x7d`. -/
structure ExtractionResult where
  date : Option SimpleDate
  confidence : ℚ
deriving DecidableEq

/-- Pattern loop of `extractExpiryDate`: for the first pattern with a match,
parse the capture and — only when the parse succeeds and passes the
plausibility window — return it with its confidence; otherwise continue with
the remaining patterns; when the table is exhausted return
`\x7b date: null, confidence: 0 \x7d`. -/
def tryPatterns (now : Int) : List DatePattern → List Char → ExtractionResult
  | [], _ => ⟨none, 0⟩
  | p :: ps, text =>
    match scanPattern p.pre p.cap text with
    | some (m0, m1) =>
      match parseDate (String.mk m1) with
      | some d =>
        if isValidExpiryDate d now then ⟨some d, calculateConfidence p.src m0⟩
        else tryPatterns now ps text
      | none => tryPatterns now ps text
    | none => tryPatterns now ps text

/-- Worker of `collapseWs`: the flag records whether the previous character
belonged to a whitespace run (whose single replacement space has already been
emitted). -/
def collapseWsAux : Bool → List Char → List Char
  | _, [] => []
  | prevSpace, c :: rest =>
    if isSpaceChar c then
      if prevSpace then collapseWsAux true rest
      else ' ' :: collapseWsAux true rest
    else c :: collapseWsAux false rest

/-- Embedding of `text.replace(/\s+/g, ' ')`: every maximal whitespace run
collapses to a single space. -/
def collapseWs (s : List Char) : List Char := collapseWsAux false s

/-- Embedding of `DateExtractor.extractExpiryDate`: the subject is
whitespace-collapsed and trimmed (and lower-cased, standing in for the `i`
flag of every pattern), then the pattern table is tried in order. -/
def extractExpiryDate (text : String) (now : Int) : ExtractionResult :=
  tryPatterns now datePatterns (trimChars (collapseWs (text.data.map toLowerChar)))

/-- Helper: the base confidence contribution of the pattern source is at
least the 0.5 base. -/
theorem sourceConfidence_ge_half (src : String) : (1 : ℚ) / 2 ≤ sourceConfidence src := by
  simp only [sourceConfidence]
  split_ifs <;> norm_num

/-- Helper: every confidence score is capped at 0.95. -/
theorem calculateConfidence_le (src : String) (m0 : List Char) :
    calculateConfidence src m0 ≤ 95 / 100 := by
  simp only [calculateConfidence]
  exact min_le_right _ _

/-- Helper: the matched-text bonuses only add, so the final score is at least
the capped source score. -/
theorem le_calculateConfidence (src : String) (m0 : List Char) :
    min (sourceConfidence src) ((95 : ℚ) / 100) ≤ calculateConfidence src m0 := by
  simp only [calculateConfidence]
  apply min_le_min _ le_rfl
  split_ifs <;> linarith

/-- Helper: evaluation of the source-bonus chain once the three substring
tests are known. -/
theorem sourceConfidence_eval (src : String) (b1 b2 b3 : Bool)
    (h1 : containsStr src.data "expir".data = b1)
    (h2 : containsStr src.data "valid".data = b2)
    (h3 : containsStr src.data ":".data = b3) :
    sourceConfidence src = 5 / 10 + (if b1 then (3 : ℚ) / 10 else 0) +
      (if b2 then (2 : ℚ) / 10 else 0) + (if b3 then (1 : ℚ) / 10 else 0) := by
  simp only [sourceConfidence, h1, h2, h3]
  cases b1 <;> cases b2 <;> cases b3 <;> norm_num

/-- Helper: every entry of the pattern table earns, on top of the 0.5 base,
either the 0.3 `expir` source bonus or both the 0.2 `valid` and 0.1 colon
source bonuses, so its source confidence is at least 0.8. -/
theorem sourceConfidence_patterns (p : DatePattern) (hp : p ∈ datePatterns) :
    (4 : ℚ) / 5 ≤ sourceConfidence p.src := by
  simp only [datePatterns] at hp
  fin_cases hp <;>
    first
      | (rw [sourceConfidence_eval _ true true true (by decide) (by decide) (by decide)]
         norm_num)
      | (rw [sourceConfidence_eval _ false true true (by decide) (by decide) (by decide)]
         norm_num)
      | (rw [sourceConfidence_eval _ true false false (by decide) (by decide) (by decide)]
         norm_num)

/-- Helper: first reduction step of the pattern loop when the head pattern
has no match. -/
theorem tryPatterns_cons_scan_none (now : Int) (p : DatePattern) (ps : List DatePattern)
    (text : List Char) (hscan : scanPattern p.pre p.cap text = none) :
    tryPatterns now (p :: ps) text = tryPatterns now ps text := by
  have hstep : tryPatterns now (p :: ps) text =
      match scanPattern p.pre p.cap text with
      | some (m0, m1) =>
        match parseDate (String.mk m1) with
        | some d =>
          if isValidExpiryDate d now then ⟨some d, calculateConfidence p.src m0⟩
          else tryPatterns now ps text
        | none => tryPatterns now ps text
      | none => tryPatterns now ps text := rfl
  rw [hstep, hscan]

/-- Helper: first reduction step of the pattern loop when the head pattern
matches, exposing the parse and plausibility decisions. -/
theorem tryPatterns_cons_scan_some (now : Int) (p : DatePattern) (ps : List DatePattern)
    (text m0 m1 : List Char) (hscan : scanPattern p.pre p.cap text = some (m0, m1)) :
    tryPatterns now (p :: ps) text =
      match parseDate (String.mk m1) with
      | some d =>
        if isValidExpiryDate d now then ⟨some d, calculateConfidence p.src m0⟩
        else tryPatterns now ps text
      | none => tryPatterns now ps text := by
  have hstep : tryPatterns now (p :: ps) text =
      match scanPattern p.pre p.cap text with
      | some (m0, m1) =>
        match parseDate (String.mk m1) with
        | some d =>
          if isValidExpiryDate d now then ⟨some d, calculateConfidence p.src m0⟩
          else tryPatterns now ps text
        | none => tryPatterns now ps text
      | none => tryPatterns now ps text := rfl
  rw [hstep, hscan]

/-- Helper: structure of the pattern loop. The result of `tryPatterns` is
either the absent sentinel `\x7b date: null, confidence: 0 \x7d`, or a date that
passed the plausibility window together with the confidence of the pattern
(from the table) that produced it. -/
theorem tryPatterns_spec (now : Int) (ps : List DatePattern) (text : List Char) :
    tryPatterns now ps text = ⟨none, 0⟩ ∨
    ∃ p, p ∈ ps ∧ ∃ d m0,
      tryPatterns now ps text = ⟨some d, calculateConfidence p.src m0⟩ ∧
      isValidExpiryDate d now = true := by
  induction ps with
  | nil => exact Or.inl rfl
  | cons p ps ih =>
    cases hscan : scanPattern p.pre p.cap text with
    | none =>
      rw [tryPatterns_cons_scan_none now p ps text hscan]
      rcases ih with h | ⟨q, hq, d, m0, heq, hval⟩
      · exact Or.inl h
      · exact Or.inr ⟨q, List.mem_cons_of_mem _ hq, d, m0, heq, hval⟩
    | some mm =>
      obtain ⟨m0, m1⟩ := mm
      rw [tryPatterns_cons_scan_some now p ps text m0 m1 hscan]
      split
      · next d hparse =>
        split
        · next hval =>
          exact Or.inr ⟨p, List.mem_cons_self p ps, d, m0, rfl, hval⟩
        · next hval =>
          rcases ih with h | ⟨q, hq, d2, m0x, heq, hval2⟩
          · exact Or.inl h
          · exact Or.inr ⟨q, List.mem_cons_of_mem _ hq, d2, m0x, heq, hval2⟩
      · next hparse =>
        rcases ih with h | ⟨q, hq, d2, m0x, heq, hval2⟩
        · exact Or.inl h
        · exact Or.inr ⟨q, List.mem_cons_of_mem _ hq, d2, m0x, heq, hval2⟩

/-- C8: for every input text and evaluation instant, a present date returned
by `extractExpiryDate` passed `isValidExpiryDate`, the ±5-year plausibility
window around the current instant; a structurally matched and normalized date
outside the window is never returned. -/
theorem extraction_within_plausibility_window (text : String) (now : Int) (d : SimpleDate)
    (h : (extractExpiryDate text now).date = some d) :
    isValidExpiryDate d now = true := by
  have hun : extractExpiryDate text now =
      tryPatterns now datePatterns (trimChars (collapseWs (text.data.map toLowerChar))) := rfl
  rcases tryPatterns_spec now datePatterns (trimChars (collapseWs (text.data.map toLowerChar)))
      with heq | ⟨p, hp, d2, m0, heq, hval⟩
  · rw [hun, heq] at h
    cases h
  · rw [hun, heq] at h
    dsimp only at h
    simp only [Option.some.injEq] at h
    rwa [← h]

/-- C8 witness: the plausibility conclusion at the concrete text
`Valid until 01/15/2027` evaluated at the instant 2026-10-11. -/
theorem extraction_within_plausibility_window_witness :
    (extractExpiryDate "Valid until 01/15/2027" 1791676800000).date = some ⟨2027, 1, 15⟩ ∧
    isValidExpiryDate ⟨2027, 1, 15⟩ 1791676800000 = true := by
  have h : (extractExpiryDate "Valid until 01/15/2027" 1791676800000).date =
      some ⟨2027, 1, 15⟩ := by decide
  exact ⟨h, extraction_within_plausibility_window _ _ _ h⟩

/-- C9: for every input text and evaluation instant, the confidence of the
extraction result is 0 exactly when the date is absent, and the confidence
always lies in `[0, 0.95]`; in particular, when no pattern yields an accepted
result the returned record is exactly `\x7b date: null, confidence: 0 \x7d`. -/
theorem extraction_confidence_zero_iff_absent (text : String) (now : Int) :
    ((extractExpiryDate text now).confidence = 0 ↔
      (extractExpiryDate text now).date = none) ∧
    0 ≤ (extractExpiryDate text now).confidence ∧
    (extractExpiryDate text now).confidence ≤ 95 / 100 := by
  have hun : extractExpiryDate text now =
      tryPatterns now datePatterns (trimChars (collapseWs (text.data.map toLowerChar))) := rfl
  rcases tryPatterns_spec now datePatterns (trimChars (collapseWs (text.data.map toLowerChar)))
      with heq | ⟨p, hp, d, m0, heq, hval⟩
  · rw [hun, heq]
    norm_num
  · rw [hun, heq]
    dsimp only
    have h1 : (1 : ℚ) / 2 ≤ calculateConfidence p.src m0 := by
      have ha := le_calculateConfidence p.src m0
      have hb : min ((1 : ℚ) / 2) ((95 : ℚ) / 100) ≤
          min (sourceConfidence p.src) ((95 : ℚ) / 100) :=
        min_le_min (sourceConfidence_ge_half p.src) le_rfl
      have hc : min ((1 : ℚ) / 2) ((95 : ℚ) / 100) = (1 : ℚ) / 2 := by norm_num
      linarith
    have h2 := calculateConfidence_le p.src m0
    constructor
    · constructor
      · intro h0
        exfalso
        rw [h0] at h1
        norm_num at h1
      · intro h0
        cases h0
    · exact ⟨by linarith, h2⟩

/-- C10: for every input text and evaluation instant, the returned confidence
is either exactly 0 (absent date) or lies in `[0.8, 0.95]`: every pattern in
the table earns, besides the 0.5 base, either the `expir` source bonus or
both the `valid` and colon source bonuses, so a present result is never
scored below 0.8. -/
theorem extraction_confidence_floor (text : String) (now : Int) :
    (extractExpiryDate text now).confidence = 0 ∨
    ((4 : ℚ) / 5 ≤ (extractExpiryDate text now).confidence ∧
      (extractExpiryDate text now).confidence ≤ 95 / 100) := by
  have hun : extractExpiryDate text now =
      tryPatterns now datePatterns (trimChars (collapseWs (text.data.map toLowerChar))) := rfl
  rcases tryPatterns_spec now datePatterns (trimChars (collapseWs (text.data.map toLowerChar)))
      with heq | ⟨p, hp, d, m0, heq, hval⟩
  · rw [hun, heq]
    exact Or.inl rfl
  · rw [hun, heq]
    dsimp only
    refine Or.inr ⟨?_, calculateConfidence_le p.src m0⟩
    have h1 := sourceConfidence_patterns p hp
    have h2 := le_calculateConfidence p.src m0
    have h3 : min ((4 : ℚ) / 5) ((95 : ℚ) / 100) ≤ min (sourceConfidence p.src) ((95 : ℚ) / 100) :=
      min_le_min h1 le_rfl
    have h4 : min ((4 : ℚ) / 5) ((95 : ℚ) / 100) = (4 : ℚ) / 5 := by norm_num
    linarith

/-- C7: on the exact input `Expiry Date: 12/31/2026`, whenever the evaluation
instant admits 2026-12-31 in the plausibility window, the extractor returns
the present date 2026-12-31 with confidence 0.95 (the label, `valid`-source,
colon and `expiry date` phrase bonuses all apply and the total is capped at
0.95), which is at least 0.8. -/
theorem extract_expiry_date_colon_example (now : Int)
    (h : isValidExpiryDate ⟨2026, 12, 31⟩ now = true) :
    extractExpiryDate "Expiry Date: 12/31/2026" now = ⟨some ⟨2026, 12, 31⟩, 19 / 20⟩ ∧
    (4 : ℚ) / 5 ≤ 19 / 20 := by
  refine ⟨?_, by norm_num⟩
  have hun : extractExpiryDate "Expiry Date: 12/31/2026" now =
      tryPatterns now datePatterns ("expiry date: 12/31/2026".data) := rfl
  have hs1 : scanPattern preLabel capNamed ("expiry date: 12/31/2026".data) = none := by
    decide
  have hs2 : scanPattern preLabel capNum1 ("expiry date: 12/31/2026".data) =
      some ("expiry date: 12/31/2026".data, "12/31/2026".data) := by decide
  have hp2 : parseDate (String.mk ("12/31/2026".data)) = some ⟨2026, 12, 31⟩ := by decide
  have hsrc : sourceConfidence src2 = 11 / 10 := by
    rw [sourceConfidence_eval _ true true true (by decide) (by decide) (by decide)]
    norm_num
  have b1 : containsStr ("expiry date: 12/31/2026".data) "expiry date".data = true := by decide
  have b2 : containsStr ("expiry date: 12/31/2026".data) "valid until".data = false := by decide
  have b3 : containsStr ("expiry date: 12/31/2026".data) "expires".data = false := by decide
  have hconf : calculateConfidence src2 ("expiry date: 12/31/2026".data) = 19 / 20 := by
    simp only [calculateConfidence, hsrc, b1, b2, b3]
    norm_num [min_def]
  rw [hun]
  simp only [datePatterns]
  rw [tryPatterns_cons_scan_none now ⟨src1, preLabel, capNamed⟩ _ _ hs1]
  rw [tryPatterns_cons_scan_some now ⟨src2, preLabel, capNum1⟩ _ _ _ _ hs2]
  rw [hp2]
  split
  · next d hvaleq =>
    injection hvaleq with hd
    subst hd
    rw [hconf, if_pos h]
  · next hvaleq =>
    cases hvaleq

/-- C7 witness: the example evaluated at the concrete instant 2026-10-11,
which admits 2026-12-31 in the five-year window. -/
theorem extract_expiry_date_colon_example_witness :
    isValidExpiryDate ⟨2026, 12, 31⟩ 1791676800000 = true ∧
    extractExpiryDate "Expiry Date: 12/31/2026" 1791676800000 =
      ⟨some ⟨2026, 12, 31⟩, 19 / 20⟩ := by
  have hv : isValidExpiryDate ⟨2026, 12, 31⟩ 1791676800000 = true := by decide
  exact ⟨hv, (extract_expiry_date_colon_example 1791676800000 hv).1⟩

end CertTrackr
